import Mathlib

/-!
Verification of the first-level workflow helpers of `neuroscout-cli`
(`neuroscout_cli/workflows/first_level.py`), as a shallow embedding in Lean.

The three pieces of orchestration logic under scrutiny are the pure helper
functions embedded in `create_first_level`:

* `get_subs`   — the substitution-table generator for the data sink;
* `sort_copes` — the reshape/transpose aggregation of per-run statistics;
* `get_data`   — the event-table / run-manifest data source.

Python strings are modelled by `String`, Python's `'%d' % n` decimal
formatting by `Nat.repr` (Lean's own pure decimal printer), `'%02d' % n`
by `pad2`, and Python lists by `List`.  Failure (a raised exception) is
modelled by `Except`.
-/

namespace FirstLevel

/-- Decimal rendering of a natural number, the model of Python's `'%d' % n`
for the non-negative arguments `get_subs` uses. -/
def natDec (n : Nat) : String := Nat.repr n

/-- Zero-padded two-digit rendering, the model of Python's `'%02d' % n`:
numbers below ten get one leading zero, larger numbers print in full. -/
def pad2 (n : Nat) : String := if n < 10 then "0" ++ natDec n else natDec n

/-- The eleven substitutions `get_subs` appends for contrast index `i`,
given `C = len(conds)` contrasts in total, in source order: the five
`_flameo` fan-in entries at replica index `i`, then the warp-stage
`_warp`/`_trans` entries whose replica indices are `i` for copes,
`C + i` for varcopes and `2*C + i` for zstats. -/
def contrast_subs (C i : Nat) : List (String × String) :=
  [("_flameo" ++ natDec i ++ "/cope1.", "cope" ++ pad2 (i + 1) ++ "."),
   ("_flameo" ++ natDec i ++ "/varcope1.", "varcope" ++ pad2 (i + 1) ++ "."),
   ("_flameo" ++ natDec i ++ "/zstat1.", "zstat" ++ pad2 (i + 1) ++ "."),
   ("_flameo" ++ natDec i ++ "/tstat1.", "tstat" ++ pad2 (i + 1) ++ "."),
   ("_flameo" ++ natDec i ++ "/res4d.", "res4d" ++ pad2 (i + 1) ++ "."),
   ("_warpall" ++ natDec i ++ "/cope1_warp.", "cope" ++ pad2 (i + 1) ++ "."),
   ("_warpall" ++ natDec (C + i) ++ "/varcope1_warp.", "varcope" ++ pad2 (i + 1) ++ "."),
   ("_warpall" ++ natDec (2 * C + i) ++ "/zstat1_warp.", "zstat" ++ pad2 (i + 1) ++ "."),
   ("_warpall" ++ natDec i ++ "/cope1_trans.", "cope" ++ pad2 (i + 1) ++ "."),
   ("_warpall" ++ natDec (C + i) ++ "/varcope1_trans.", "varcope" ++ pad2 (i + 1) ++ "."),
   ("_warpall" ++ natDec (2 * C + i) ++ "/zstat1_trans.", "zstat" ++ pad2 (i + 1) ++ ".")]

/-- The substitution table of `get_subs` from the source: one leading entry
erasing the subject iteration tag, followed by the eleven per-contrast
entries for each contrast index `i` in `[0, len conds)`, in loop order.
Only the length of `conds` matters, as in the source. -/
def get_subs {γ : Type} (subject_id : String) (conds : List γ) : List (String × String) :=
  ("_subject_id_" ++ subject_id, "") ::
    (List.range conds.length).flatMap (contrast_subs conds.length)

/-- A Python value as `sort_copes` receives it: either a bare scalar (a
single statistic image path) or a (possibly nested) list of such values.
`numpy.array` turns the well-formed (rectangular) ones into arrays. -/
inductive PyVal (α : Type) where
  | scalar : α → PyVal α
  | list : List (PyVal α) → PyVal α

mutual

/-- Depth-first collection of the scalars of a nested value: the model of
`np.array(x).flatten().tolist()` for the rectangular values (those whose
`shape?` is `some _`) that `numpy` accepts. -/
def npFlatten {α : Type} : PyVal α → List α
  | .scalar a => [a]
  | .list vs => npFlattenL vs

/-- Flattening of a list of nested values, element by element. -/
def npFlattenL {α : Type} : List (PyVal α) → List α
  | [] => []
  | v :: vs => npFlatten v ++ npFlattenL vs

end

mutual

/-- The `numpy` shape of a nested value: `some dims` when the value is
rectangular (every sibling has the same shape), `none` when `np.array`
has no well-formed array for it. A scalar has shape `[]`, a list of `n`
items of common shape `s` has shape `n :: s`. -/
def PyVal.shape? {α : Type} : PyVal α → Option (List Nat)
  | .scalar _ => some []
  | .list vs => (elemsShape? vs).map (fun s => vs.length :: s)

/-- The common shape of the elements of a list, `none` when they disagree. -/
def elemsShape? {α : Type} : List (PyVal α) → Option (List Nat)
  | [] => some []
  | [v] => v.shape?
  | v :: w :: vs =>
    match v.shape?, elemsShape? (w :: vs) with
    | some s, some t => if s = t then some s else none
    | _, _ => none

end

/-- Python's `len` on a value `sort_copes` has ensured is a list; the
scalar case never arises there (a bare scalar has no `len()`). -/
def pyLen {α : Type} : PyVal α → Nat
  | .scalar _ => 0
  | .list vs => vs.length

/-- The first `q` rows, of `c` elements each, of a flat list read in
row-major order: the model of `np.reshape(q, c)` when `q * c` is the
length of the list. -/
def chunkRows {α : Type} : Nat → Nat → List α → List (List α)
  | 0, _, _ => []
  | q + 1, c, xs => xs.take c :: chunkRows q c (xs.drop c)

/-- The model of `flat.reshape(int(len(flat) / c), c).T.tolist()` on a
flat array whose length `c` divides: row `j` of the result collects the
`j`-th element of every row-major row. -/
def npReshapeT {α : Type} (flat : List α) (c : Nat) : List (List α) :=
  (List.range c).map (fun j =>
    (chunkRows (flat.length / c) c flat).filterMap (fun row => row[j]?))

/-- The failures `sort_copes` can raise, named as the specification names
them: `shapeMismatch` is the `ValueError` of a `numpy` reshape whose
element count does not divide (the spec's `ShapeMismatchError`), and
`zeroDivision` is Python's `ZeroDivisionError` from `int(len / 0)` when
the contrast list is empty. -/
inductive NpErr where
  | shapeMismatch
  | zeroDivision
deriving DecidableEq

/-- The `sort_copes` helper from the source: wrap a non-list `copes` (and
then also `varcopes`) into a one-element list, flatten both series, and
reshape each to `(len / C) × C` row-major before transposing, returning
the two transposed series together with `n_runs = len(copes)`. -/
def sort_copes {α β : Type} (copes varcopes : PyVal α) (contrasts : List β) :
    Except NpErr (List (List α) × List (List α) × Nat) :=
  let p : PyVal α × PyVal α :=
    match copes with
    | .scalar a => (.list [.scalar a], .list [varcopes])
    | c => (c, varcopes)
  let num_copes := contrasts.length
  let n_runs := pyLen p.1
  let all_copes := npFlatten p.1
  let all_varcopes := npFlatten p.2
  if num_copes = 0 then .error .zeroDivision
  else if all_copes.length % num_copes ≠ 0 then .error .shapeMismatch
  else if all_varcopes.length % num_copes ≠ 0 then .error .shapeMismatch
  else .ok (npReshapeT all_copes num_copes, npReshapeT all_varcopes num_copes, n_runs)

/-- A two-level Python list (runs × contrasts) as a nested value. -/
def toPy2 {α : Type} (rows : List (List α)) : PyVal α :=
  .list (rows.map (fun r => .list (r.map .scalar)))

/-- The value of a non-negative decimal digit string, `none` if empty or
holding a non-digit. -/
def digitsVal? (l : List Char) : Option Nat :=
  if l.isEmpty then none
  else l.foldl (fun acc c =>
    acc.bind (fun n => if c.isDigit then some (10 * n + (c.toNat - 48)) else none)) (some 0)

/-- The model of Python's `int(s)` on the plain decimal strings the
workflow passes (an optional leading minus sign followed by digits):
`none` models the `ValueError` that `int` raises otherwise. -/
def pyInt? (s : String) : Option Int :=
  match s.data with
  | '-' :: rest => (digitsVal? rest).map (fun n => -(n : Int))
  | l => (digitsVal? l).map (fun n => (n : Int))

/-- The model of Python's `os.path.join(a, b)` on POSIX: an absolute `b`
wins; otherwise `b` is appended to `a` with a separator unless `a` is
empty or already ends in one. -/
def os_path_join (a b : String) : String :=
  if b.data.head? = some '/' then b
  else if a.data = [] then b
  else if a.data.getLast? = some '/' then a ++ b
  else a ++ "/" ++ b

/-- The distinct keys of a column, in ascending order: the order in which
`pandas.groupby` (with its default `sort=True`) visits the groups. -/
def sortedKeys {κ : Type} [LinearOrder κ] (l : List κ) : List κ :=
  List.insertionSort (· ≤ ·) l.dedup

/-- One row of the tabular event log `event_data`: the `subject` and `run`
columns are numeric, `condition` is a label, and the `onset`, `duration`
and `amplitude` columns carry values of an abstract payload type `α`
(the source never computes with them, it only regroups them). -/
structure EventRow (α : Type) where
  subject : Int
  run : Int
  condition : String
  onset : α
  duration : α
  amplitude : α
deriving DecidableEq

/-- One record of the run manifest `runs`: the fields `get_data` reads.
`number` is kept as the string the manifest carries (the source converts
it with `int(...)`). -/
structure RunRec where
  number : String
  subject : String
  func_path : String
  mask_path : String
deriving DecidableEq

/-- The per-run condition bundle (`nipype`'s `Bunch`) that `get_data`
builds: parallel lists indexed by condition, in the order
`groupby('condition')` visits them. -/
structure Bunch (α : Type) where
  conditions : List String
  onsets : List (List α)
  durations : List (List α)
  amplitudes : List (List α)
deriving DecidableEq

/-- The failures `get_data` can raise: `valueError` models `int(...)` on a
malformed numeric string, `indexError` models `bm[0]` on an empty mask
list. -/
inductive DataErr where
  | valueError
  | indexError
deriving DecidableEq

/-- The bundle built from the event rows of one run: conditions in the
sorted order `groupby('condition')` yields, each paired with the run's
onset/duration/amplitude columns for that condition in row order. -/
def mkBunch {α : Type} (rows : List (EventRow α)) : Bunch α :=
  let ks := sortedKeys (rows.map (·.condition))
  { conditions := ks
  , onsets := ks.map (fun c => (rows.filter (fun e => e.condition == c)).map (·.onset))
  , durations := ks.map (fun c => (rows.filter (fun e => e.condition == c)).map (·.duration))
  , amplitudes := ks.map (fun c => (rows.filter (fun e => e.condition == c)).map (·.amplitude)) }

/-- The `get_data` helper from the source: filter the event table to the
subject, list the subject's manifest run numbers, build one bundle per
event-table run (in the ascending order `groupby('run')` yields) that is
also in the manifest, and return the `bids_dir`-joined functional paths,
the first matching run's joined mask path (`bm[0]`), and the bundles. -/
def get_data {α : Type} (bids_dir subject_id : String)
    (event_data : List (EventRow α)) (runs : List RunRec) :
    Except DataErr (List String × String × List (Bunch α)) :=
  match pyInt? subject_id with
  | none => .error .valueError
  | some sid =>
    let subject_data := event_data.filter (fun e => e.subject == sid)
    match (runs.filter (fun r => r.subject == subject_id)).mapM (fun r => pyInt? r.number) with
    | none => .error .valueError
    | some subject_runs =>
      let subject_bunches := (sortedKeys (subject_data.map (·.run))).filterMap (fun r =>
        if r ∈ subject_runs then
          some (mkBunch (subject_data.filter (fun e => e.run == r)))
        else none)
      let func := (runs.filter (fun r => r.subject == subject_id)).map
        (fun r => os_path_join bids_dir r.func_path)
      let bm := (runs.filter (fun r => r.subject == subject_id)).map
        (fun r => os_path_join bids_dir r.mask_path)
      match bm with
      | [] => .error .indexError
      | b :: _ => .ok (func, b, subject_bunches)

example : pad2 1 = "01" := by decide
example : natDec 12 = "12" := by decide
example : ("_warpall2/varcope1_warp.", "varcope01.") ∈
    get_subs "01" ["taskA", "taskB"] := by decide

example :
    sort_copes (toPy2 [[10, 11], [20, 21], [30, 31]]) (toPy2 [[1, 2], [3, 4], [5, 6]])
      ["a", "b"] = .ok ([[10, 20, 30], [11, 21, 31]], [[1, 3, 5], [2, 4, 6]], 3) := rfl

example :
    sort_copes (PyVal.scalar 5) (PyVal.scalar 7) ["a"] = .ok ([[5]], [[7]], 1) := rfl

example :
    sort_copes (PyVal.list [.scalar 1, .scalar 2, .scalar 3])
      (PyVal.list [.scalar 1, .scalar 2, .scalar 3]) ["a", "b"] =
      .error .shapeMismatch := rfl

example : pyInt? "01" = some 1 := by decide
example : pyInt? "x" = none := by decide
example : os_path_join "base" "sub/f.nii" = "base/sub/f.nii" := by decide

example :
    get_data "b" "1"
      [⟨1, 1, "c", (0 : Int), 0, 0⟩]
      [⟨"1", "1", "f1", "m1"⟩, ⟨"2", "1", "f2", "m2"⟩] =
      .ok (["b/f1", "b/f2"], "b/m1", [⟨["c"], [[0]], [[0]], [[0]]⟩]) := rfl

example :
    get_data "b" "2" ([] : List (EventRow Int)) [⟨"1", "1", "f", "m"⟩] =
      .error .indexError := rfl

/-! Helper lemmas about decimal rendering: every character produced by the
decimal printer is a digit, so no pattern character such as an underscore
can hide inside a rendered number. -/

theorem isDigit_digitChar (n : Nat) (h : n < 10) : (Nat.digitChar n).isDigit = true := by
  interval_cases n <;> decide

theorem toDigitsCore_isDigit (fuel : Nat) :
    ∀ (n : Nat) (ds : List Char), (∀ c ∈ ds, c.isDigit = true) →
      ∀ c ∈ Nat.toDigitsCore 10 fuel n ds, c.isDigit = true := by
  induction fuel with
  | zero => exact fun n ds hds c hc => hds c hc
  | succ fuel ih =>
    intro n ds hds c hc
    have hd : (Nat.digitChar (n % 10)).isDigit = true :=
      isDigit_digitChar _ (Nat.mod_lt _ (by omega))
    have hcons : ∀ x ∈ Nat.digitChar (n % 10) :: ds, x.isDigit = true := by
      intro x hx
      rcases List.mem_cons.mp hx with rfl | hx
      · exact hd
      · exact hds x hx
    simp only [Nat.toDigitsCore] at hc
    split at hc
    · exact hcons c hc
    · exact ih _ _ hcons c hc

theorem natDec_isDigit (n : Nat) : ∀ c ∈ (natDec n).data, c.isDigit = true := by
  intro c hc
  exact toDigitsCore_isDigit (n + 1) n [] (by simp) c hc

theorem underscore_notMem_natDec (n : Nat) : '_' ∉ (natDec n).data := by
  intro h
  have := natDec_isDigit n '_' h
  simp at this

theorem underscore_notMem_pad2 (n : Nat) : '_' ∉ (pad2 n).data := by
  unfold pad2
  split
  · rw [String.data_append]
    intro h
    rcases List.mem_append.mp h with h | h
    · simp at h
    · exact underscore_notMem_natDec n h
  · exact underscore_notMem_natDec n

theorem underscore_notMem_stem_pad2 (stem : String) (hs : '_' ∉ stem.data) (n : Nat) :
    '_' ∉ (stem ++ pad2 n ++ ".").data := by
  rw [String.data_append, String.data_append]
  intro h
  rcases List.mem_append.mp h with h | h
  · rcases List.mem_append.mp h with h | h
    · exact hs h
    · exact underscore_notMem_pad2 n h
  · simp at h

/-- Every replacement string in a substitution table of `get_subs` is free
of underscores: the head entry replaces by the empty string, and every
block entry replaces by a plain name followed by a padded number. -/
theorem get_subs_repl_no_underscore {γ : Type} (s : String) (conds : List γ) :
    ∀ p ∈ get_subs s conds, '_' ∉ p.2.data := by
  intro p hp
  rcases List.mem_cons.mp hp with rfl | hp
  · simp
  · rcases List.mem_flatMap.mp hp with ⟨i, _, hpi⟩
    simp only [contrast_subs, List.mem_cons, List.not_mem_nil, or_false] at hpi
    rcases hpi with rfl | rfl | rfl | rfl | rfl | rfl | rfl | rfl | rfl | rfl | rfl <;>
      exact underscore_notMem_stem_pad2 _ (by decide) _

/-- Every pattern string among the per-contrast entries of `get_subs`
contains an underscore (each starts with `_flameo` or `_warpall`). -/
theorem get_subs_pat_underscore {γ : Type} (conds : List γ) (p : String × String)
    (hp : p ∈ (List.range conds.length).flatMap (contrast_subs conds.length)) :
    '_' ∈ p.1.data := by
  rcases List.mem_flatMap.mp hp with ⟨i, _, hpi⟩
  simp only [contrast_subs, List.mem_cons, List.not_mem_nil, or_false] at hpi
  rcases hpi with rfl | rfl | rfl | rfl | rfl | rfl | rfl | rfl | rfl | rfl | rfl <;>
    · rw [String.data_append, String.data_append]
      exact List.mem_append_left _ (List.mem_append_left _ (by decide))

/-- C1: for every subject id and every non-empty contrast list of length
`C`, and every contrast index `i < C`, the substitution table of
`get_subs` maps the warp-stage cope patterns at replica index `i`, the
warp-stage varcope patterns at replica index `C + i`, and the warp-stage
zstat patterns at replica index `2C + i` (both in their `_warp.` and
`_trans.` spellings) to the stable 1-based zero-padded contrast names
`cope`/`varcope`/`zstat` numbered `i + 1`. -/
theorem get_subs_warp_offsets {γ : Type} (s : String) (conds : List γ)
    (_hne : conds ≠ []) (i : Nat) (hi : i < conds.length) :
    ("_warpall" ++ natDec i ++ "/cope1_warp.", "cope" ++ pad2 (i + 1) ++ ".")
        ∈ get_subs s conds ∧
    ("_warpall" ++ natDec (conds.length + i) ++ "/varcope1_warp.",
        "varcope" ++ pad2 (i + 1) ++ ".") ∈ get_subs s conds ∧
    ("_warpall" ++ natDec (2 * conds.length + i) ++ "/zstat1_warp.",
        "zstat" ++ pad2 (i + 1) ++ ".") ∈ get_subs s conds ∧
    ("_warpall" ++ natDec i ++ "/cope1_trans.", "cope" ++ pad2 (i + 1) ++ ".")
        ∈ get_subs s conds ∧
    ("_warpall" ++ natDec (conds.length + i) ++ "/varcope1_trans.",
        "varcope" ++ pad2 (i + 1) ++ ".") ∈ get_subs s conds ∧
    ("_warpall" ++ natDec (2 * conds.length + i) ++ "/zstat1_trans.",
        "zstat" ++ pad2 (i + 1) ++ ".") ∈ get_subs s conds := by
  refine ⟨?_, ?_, ?_, ?_, ?_, ?_⟩ <;>
    exact List.mem_cons_of_mem _
      (List.mem_flatMap.mpr ⟨i, List.mem_range.mpr hi, by simp [contrast_subs]⟩)

/-- C1 witness: for subject `"01"` and two contrasts, the varcope pattern
for contrast index 0 sits at warp replica index `2` and the zstat pattern
at warp replica index `4`, both renamed with suffix `01`. -/
theorem get_subs_warp_offsets_witness :
    ("_warpall" ++ natDec (2 + 0) ++ "/varcope1_warp.", "varcope" ++ pad2 (0 + 1) ++ ".")
        ∈ get_subs "01" ["taskA", "taskB"] ∧
    "_warpall" ++ natDec (2 + 0) ++ "/varcope1_warp." = "_warpall2/varcope1_warp." ∧
    ("_warpall" ++ natDec (2 * 2 + 0) ++ "/zstat1_warp.", "zstat" ++ pad2 (0 + 1) ++ ".")
        ∈ get_subs "01" ["taskA", "taskB"] ∧
    "_warpall" ++ natDec (2 * 2 + 0) ++ "/zstat1_warp." = "_warpall4/zstat1_warp." := by
  have h := get_subs_warp_offsets "01" ["taskA", "taskB"] (by decide) 0 (by decide)
  exact ⟨h.2.1, by decide, h.2.2.1, by decide⟩

/-- C3: the first entry of every `get_subs` table erases the subject
iteration tag, replacing `_subject_id_<s>` by the empty string, and every
replacement in the block for contrast index `i` ends in the zero-padded
suffix for `i + 1` (so index 0 uses `01`, index 1 uses `02`, and so on). -/
theorem get_subs_head_and_suffixes {γ : Type} (s : String) (conds : List γ) :
    (get_subs s conds).head? = some ("_subject_id_" ++ s, "") ∧
    pad2 (0 + 1) = "01" ∧ pad2 (1 + 1) = "02" ∧
    ∀ i, i < conds.length → ∀ p ∈ contrast_subs conds.length i,
      ∃ stem, p.2 = stem ++ pad2 (i + 1) ++ "." := by
  refine ⟨rfl, by decide, by decide, ?_⟩
  intro i _ p hp
  simp only [contrast_subs, List.mem_cons, List.not_mem_nil, or_false] at hp
  rcases hp with rfl | rfl | rfl | rfl | rfl | rfl | rfl | rfl | rfl | rfl | rfl
  · exact ⟨"cope", rfl⟩
  · exact ⟨"varcope", rfl⟩
  · exact ⟨"zstat", rfl⟩
  · exact ⟨"tstat", rfl⟩
  · exact ⟨"res4d", rfl⟩
  · exact ⟨"cope", rfl⟩
  · exact ⟨"varcope", rfl⟩
  · exact ⟨"zstat", rfl⟩
  · exact ⟨"cope", rfl⟩
  · exact ⟨"varcope", rfl⟩
  · exact ⟨"zstat", rfl⟩

/-- C3 witness: for subject `"01"` and contrasts `["taskA", "taskB"]` the
head of the table is `("_subject_id_01", "")`, and the first entry of the
block for index 0 is renamed with suffix `01`. -/
theorem get_subs_head_and_suffixes_witness :
    (get_subs "01" ["taskA", "taskB"]).head? = some ("_subject_id_01", "") ∧
    ∃ stem, (("_flameo0/cope1.", "cope01.") : String × String).2 =
      stem ++ pad2 (0 + 1) ++ "." := by
  have h := get_subs_head_and_suffixes "01" ["taskA", "taskB"]
  exact ⟨by rw [h.1]; decide, h.2.2.2 0 (by decide) ("_flameo0/cope1.", "cope01.") (by decide)⟩

/-- C8: substitutions of a `get_subs` table never feed each other: for any
two positions `j < k` of the table, the pattern of the later entry `k`
does not occur as a substring of the replacement text the earlier entry
`j` introduces, so applying the table in order can never let a later
pattern match text produced by an earlier rewrite. -/
theorem get_subs_no_rewrite_feedback {γ : Type} (s : String) (conds : List γ)
    (j k : Nat) (hjk : j < k) (pj pk : String × String)
    (hj : (get_subs s conds)[j]? = some pj)
    (hk : (get_subs s conds)[k]? = some pk) :
    ¬ pk.1.data <:+: pj.2.data := by
  intro hinf
  have hpj : pj ∈ get_subs s conds := List.getElem?_mem hj
  have hrepl := get_subs_repl_no_underscore s conds pj hpj
  obtain ⟨k', rfl⟩ : ∃ k', k = k' + 1 := ⟨k - 1, by omega⟩
  have hk' : ((List.range conds.length).flatMap (contrast_subs conds.length))[k']? =
      some pk := by
    simpa [get_subs, List.getElem?_cons_succ] using hk
  have hpat := get_subs_pat_underscore conds pk (List.getElem?_mem hk')
  obtain ⟨u, t, hut⟩ := hinf
  apply hrepl
  rw [← hut]
  exact List.mem_append_left _ (List.mem_append_right _ hpat)

/-- C8 witness: concretely, for subject `"01"` and two contrasts, the
pattern of the second entry does not occur in the replacement of the
first. -/
theorem get_subs_no_rewrite_feedback_witness :
    ¬ ("_flameo0/cope1." : String).data <:+: ("" : String).data := by
  have h := get_subs_no_rewrite_feedback "01" (["taskA", "taskB"] : List String)
    0 1 (by decide) ("_subject_id_" ++ "01", "") ("_flameo0/cope1.", "cope01.")
    (by decide) (by decide)
  exact h

/-! Helper lemmas about flattening and reshaping rectangular lists. -/

theorem npFlattenL_map_scalar {α : Type} (r : List α) :
    npFlattenL (r.map PyVal.scalar) = r := by
  induction r with
  | nil => rfl
  | cons a r ih => simp [npFlattenL, npFlatten, ih]

theorem npFlatten_toPy2 {α : Type} (rows : List (List α)) :
    npFlatten (toPy2 rows) = rows.flatten := by
  rw [toPy2, npFlatten]
  induction rows with
  | nil => rfl
  | cons r rest ih => simp [npFlattenL, npFlatten, npFlattenL_map_scalar, ih]

theorem npFlattenL_singleton {α : Type} (v : PyVal α) :
    npFlattenL [v] = npFlatten v := by
  simp [npFlattenL]

theorem flatten_length_rect {α : Type} (rows : List (List α)) (C : Nat)
    (h : ∀ r ∈ rows, r.length = C) :
    rows.flatten.length = rows.length * C := by
  induction rows with
  | nil => simp
  | cons r rest ih =>
    simp only [List.flatten_cons, List.length_append, List.length_cons]
    rw [h r (by simp), ih (fun x hx => h x (by simp [hx]))]
    ring

theorem chunkRows_flatten {α : Type} (rows : List (List α)) (C : Nat)
    (h : ∀ r ∈ rows, r.length = C) :
    chunkRows rows.length C rows.flatten = rows := by
  induction rows with
  | nil => rfl
  | cons r rest ih =>
    have hr : r.length = C := h r (by simp)
    simp only [List.length_cons, chunkRows, List.flatten_cons]
    rw [List.take_left' hr, List.drop_left' hr, ih (fun x hx => h x (by simp [hx]))]

theorem filterMap_getElem_rect {α : Type} (rows : List (List α)) (i : Nat)
    (h : ∀ r ∈ rows, i < r.length) (k : Nat) :
    (rows.filterMap (fun r => r[i]?))[k]? = rows[k]?.bind (fun r => r[i]?) := by
  induction rows generalizing k with
  | nil => simp
  | cons r rest ih =>
    have hi : i < r.length := h r (by simp)
    have hr : r[i]? = some r[i] := List.getElem?_eq_getElem hi
    cases k with
    | zero => simp [List.filterMap_cons, hr]
    | succ k =>
      simp only [List.filterMap_cons, hr, List.getElem?_cons_succ]
      exact ih (fun x hx => h x (by simp [hx])) k

theorem npReshapeT_rect {α : Type} (rows : List (List α)) (C : Nat) (hC : 0 < C)
    (h : ∀ r ∈ rows, r.length = C) :
    (npReshapeT rows.flatten C).length = C ∧
    ∀ i, i < C → ∀ k : Nat,
      (npReshapeT rows.flatten C)[i]?.bind (fun (row : List α) => row[k]?) =
        rows[k]?.bind (fun r => r[i]?) := by
  have hlen : rows.flatten.length = rows.length * C := flatten_length_rect rows C h
  have hq : rows.flatten.length / C = rows.length := by
    rw [hlen]; exact Nat.mul_div_cancel _ hC
  constructor
  · simp [npReshapeT]
  · intro i hi k
    have hrange : (List.range C)[i]? = some i := by
      simp [List.getElem?_range, hi]
    simp only [npReshapeT, hq, List.getElem?_map, hrange, Option.map_some, Option.bind_some]
    rw [chunkRows_flatten rows C h]
    exact filterMap_getElem_rect rows i (fun r hr => by rw [h r hr]; exact hi) k

/-- C2: on `R` runs of `C` contrasts each (`R, C ≥ 1`), with `copes` and
`varcopes` given as rectangular `R × C` nested lists, `sort_copes`
returns the transpose of each series — output row `i` holds the `i`-th
element of every run, in run order — together with `n_runs = R`. -/
theorem sort_copes_transpose {α β : Type} (contrasts : List β) (R C : Nat)
    (rows vrows : List (List α))
    (hC : 1 ≤ C) (_hR : 1 ≤ R) (hcc : contrasts.length = C)
    (hrl : rows.length = R) (_hvl : vrows.length = R)
    (hrc : ∀ r ∈ rows, r.length = C) (hvc : ∀ r ∈ vrows, r.length = C) :
    ∃ outc outv,
      sort_copes (toPy2 rows) (toPy2 vrows) contrasts = .ok (outc, outv, R) ∧
      outc.length = C ∧ outv.length = C ∧
      (∀ i, i < C → ∀ k : Nat,
        outc[i]?.bind (fun (row : List α) => row[k]?) = rows[k]?.bind (fun row => row[i]?)) ∧
      (∀ i, i < C → ∀ k : Nat,
        outv[i]?.bind (fun (row : List α) => row[k]?) = vrows[k]?.bind (fun row => row[i]?)) := by
  have hC0 : C ≠ 0 := by omega
  have hcm : rows.flatten.length % C = 0 := by
    rw [flatten_length_rect rows C hrc]; exact Nat.mul_mod_left _ _
  have hvm : vrows.flatten.length % C = 0 := by
    rw [flatten_length_rect vrows C hvc]; exact Nat.mul_mod_left _ _
  refine ⟨npReshapeT rows.flatten C, npReshapeT vrows.flatten C, ?_, ?_, ?_, ?_, ?_⟩
  · have hfr : npFlatten (PyVal.list
        (List.map (fun r => PyVal.list (List.map PyVal.scalar r)) rows)) = rows.flatten :=
      npFlatten_toPy2 rows
    have hfv : npFlatten (PyVal.list
        (List.map (fun r => PyVal.list (List.map PyVal.scalar r)) vrows)) = vrows.flatten :=
      npFlatten_toPy2 vrows
    simp only [sort_copes, toPy2, hcc]
    rw [List.length_flatten] at hcm hvm
    simp [hC0, hcm, hvm, pyLen, hfr, hfv, hrl]
  · exact (npReshapeT_rect rows C (by omega) hrc).1
  · exact (npReshapeT_rect vrows C (by omega) hvc).1
  · exact fun i hi k => (npReshapeT_rect rows C (by omega) hrc).2 i hi k
  · exact fun i hi k => (npReshapeT_rect vrows C (by omega) hvc).2 i hi k

/-- C2 witness: 3 runs and 2 contrasts; `[[c00,c01],[c10,c11],[c20,c21]]`
comes back as `[[c00,c10,c20],[c01,c11,c21]]` with `n_runs = 3`. -/
theorem sort_copes_transpose_witness :
    ∃ outc outv,
      sort_copes (toPy2 [[10, 11], [20, 21], [30, 31]])
        (toPy2 [[1, 2], [3, 4], [5, 6]]) (["a", "b"] : List String) =
        .ok (outc, outv, 3) ∧
      outc.length = 2 ∧ outv.length = 2 ∧
      (∀ i, i < 2 → ∀ k : Nat,
        outc[i]?.bind (fun (row : List Nat) => row[k]?) =
          ([[10, 11], [20, 21], [30, 31]] : List (List Nat))[k]?.bind (fun row => row[i]?)) ∧
      (∀ i, i < 2 → ∀ k : Nat,
        outv[i]?.bind (fun (row : List Nat) => row[k]?) =
          ([[1, 2], [3, 4], [5, 6]] : List (List Nat))[k]?.bind (fun row => row[i]?)) :=
  sort_copes_transpose ["a", "b"] 3 2 [[10, 11], [20, 21], [30, 31]]
    [[1, 2], [3, 4], [5, 6]] (by decide) (by decide) (by decide) (by decide)
    (by decide) (by decide) (by decide)

/-- C5: a bare scalar `copes` (the degenerate one-run case) is wrapped
into a single row: with one contrast, scalar inputs `a` and `b` yield
`[[a]]`, `[[b]]` and `n_runs = 1`. -/
theorem sort_copes_scalar {α β : Type} (a b : α) (contrasts : List β)
    (h1 : contrasts.length = 1) :
    sort_copes (PyVal.scalar a) (PyVal.scalar b) contrasts = .ok ([[a]], [[b]], 1) := by
  simp [sort_copes, h1, npFlatten, npFlattenL, pyLen, npReshapeT, chunkRows,
    List.range_succ]

/-- C5 witness: scalar cope `5` with one contrast yields `[[5]]` and
`n_runs = 1`. -/
theorem sort_copes_scalar_witness :
    sort_copes (PyVal.scalar (5 : Nat)) (PyVal.scalar 5) ["a"] = .ok ([[5]], [[5]], 1) :=
  sort_copes_scalar 5 5 ["a"] (by decide)

/-- C4 (amended): for every well-formed (rectangular) input and a
non-empty contrast list of length `C`, if `C` fails to divide the
flattened element count of either series, `sort_copes` fails with the
reshape error the spec calls `ShapeMismatchError`.  (For `C = 0` the
source instead raises a division error before any reshape — see the
counterexample.) -/
theorem sort_copes_shape_mismatch {α β : Type} (copes varcopes : PyVal α)
    (contrasts : List β) (hC : 1 ≤ contrasts.length)
    (_hcs : (PyVal.shape? copes).isSome = true)
    (_hvs : (PyVal.shape? varcopes).isSome = true)
    (hnd : ¬ (contrasts.length ∣ (npFlatten copes).length) ∨
           ¬ (contrasts.length ∣ (npFlatten varcopes).length)) :
    sort_copes copes varcopes contrasts = .error .shapeMismatch := by
  have hC0 : contrasts.length ≠ 0 := by omega
  have key : ∀ (lc lv : List α) (res : Except NpErr (List (List α) × List (List α) × Nat)),
      (¬ (contrasts.length ∣ lc.length) ∨ ¬ (contrasts.length ∣ lv.length)) →
      (if lc.length % contrasts.length ≠ 0 then
        (Except.error NpErr.shapeMismatch :
          Except NpErr (List (List α) × List (List α) × Nat))
       else if lv.length % contrasts.length ≠ 0 then .error .shapeMismatch
       else res) = .error .shapeMismatch := by
    intro lc lv res hd
    by_cases hc : lc.length % contrasts.length = 0
    · have hlv : lv.length % contrasts.length ≠ 0 := by
        rcases hd with hd | hd
        · exact (hd (Nat.dvd_of_mod_eq_zero hc)).elim
        · exact fun h => hd (Nat.dvd_of_mod_eq_zero h)
      simp [hc, hlv]
    · simp [hc]
  rcases copes with a | vs
  · have h1 : npFlatten (PyVal.list [PyVal.scalar a]) = npFlatten (PyVal.scalar a) := by
      simp [npFlatten, npFlattenL]
    have h2 : npFlatten (PyVal.list [varcopes]) = npFlatten varcopes := by
      simp [npFlatten, npFlattenL]
    simp only [sort_copes, h1, h2]
    rw [if_neg hC0]
    exact key _ _ _ hnd
  · simp only [sort_copes]
    rw [if_neg hC0]
    exact key _ _ _ hnd

/-- C4 witness: three flattened copes with two contrasts fail with the
reshape `ShapeMismatchError`. -/
theorem sort_copes_shape_mismatch_witness :
    sort_copes (PyVal.list [PyVal.scalar (1 : Nat), PyVal.scalar 2, PyVal.scalar 3])
      (PyVal.list [PyVal.scalar 1, PyVal.scalar 2, PyVal.scalar 3])
      (["a", "b"] : List String) = .error .shapeMismatch :=
  sort_copes_shape_mismatch _ _ _ (by decide) (by decide) (by decide)
    (Or.inl (by decide))

/-- C4 counterexample to the claim as stated: with an empty contrast list
(`C = 0`) and one flattened element, the count is not divisible by `C`,
yet the source fails with the division error of `int(len / 0)`, not with
`ShapeMismatchError`. -/
theorem sort_copes_zero_contrasts_cex :
    ¬ ((0 : Nat) ∣ (npFlatten (PyVal.list [PyVal.scalar (1 : Nat)])).length) ∧
    (PyVal.shape? (PyVal.list [PyVal.scalar (1 : Nat)])).isSome = true ∧
    sort_copes (PyVal.list [PyVal.scalar (1 : Nat)]) (PyVal.list [PyVal.scalar 1])
      ([] : List String) = .error .zeroDivision ∧
    sort_copes (PyVal.list [PyVal.scalar (1 : Nat)]) (PyVal.list [PyVal.scalar 1])
      ([] : List String) ≠ .error .shapeMismatch := by
  refine ⟨by decide, by decide, rfl, ?_⟩
  intro h
  rw [show sort_copes (PyVal.list [PyVal.scalar (1 : Nat)]) (PyVal.list [PyVal.scalar 1])
      ([] : List String) = .error .zeroDivision from rfl] at h
  simp at h

/-- C6: the source performs no shape-equality check between `copes` and
`varcopes`: on inputs of different `numpy` shapes (here `(1, 2)` against
`(2,)`) it still returns a transposed result instead of failing. -/
theorem sort_copes_no_shape_check :
    PyVal.shape? (PyVal.list [PyVal.list [PyVal.scalar (1 : Nat), PyVal.scalar 2]]) ≠
      PyVal.shape? (PyVal.list [PyVal.scalar (3 : Nat), PyVal.scalar 4]) ∧
    sort_copes (PyVal.list [PyVal.list [PyVal.scalar (1 : Nat), PyVal.scalar 2]])
      (PyVal.list [PyVal.scalar (3 : Nat), PyVal.scalar 4]) (["a", "b"] : List String) =
      .ok ([[1], [2]], [[3], [4]], 1) :=
  ⟨by decide, rfl⟩

/-! Helper lemmas about `get_data`. -/

theorem filterMap_if_mem {α : Type} (l : List Int) (srs : List Int) (g : Int → α) :
    l.filterMap (fun r => if r ∈ srs then some (g r) else none) =
      (l.filter (fun r => decide (r ∈ srs))).map g := by
  induction l with
  | nil => rfl
  | cons x l ih =>
    by_cases hx : x ∈ srs <;> simp [List.filterMap_cons, List.filter_cons, hx, ih]

theorem mem_sortedKeys {κ : Type} [LinearOrder κ] (l : List κ) (a : κ) :
    a ∈ sortedKeys l ↔ a ∈ l := by
  rw [sortedKeys, (List.perm_insertionSort _ _).mem_iff, List.mem_dedup]

theorem sortedKeys_sorted {κ : Type} [LinearOrder κ] (l : List κ) :
    List.Sorted (· < ·) (sortedKeys l) := by
  have h1 : List.Sorted (· ≤ ·) (sortedKeys l) := List.sorted_insertionSort _ _
  have h2 : (sortedKeys l).Nodup :=
    ((List.perm_insertionSort _ _).nodup_iff).mpr (List.nodup_dedup l)
  exact h1.lt_of_le h2

/-- Inversion of a successful `get_data` run: success pins the subject id
parse, the manifest-number parses, a non-empty manifest filter, and the
exact shape of the returned triple. -/
theorem get_data_ok_elim {α : Type} (bd s : String) (ed : List (EventRow α))
    (runs : List RunRec) (out : List String × String × List (Bunch α))
    (hok : get_data bd s ed runs = .ok out) :
    ∃ (sid : Int) (srs : List Int) (r0 : RunRec) (rest : List RunRec),
      pyInt? s = some sid ∧
      (runs.filter (fun r => r.subject == s)).mapM (fun r => pyInt? r.number) = some srs ∧
      runs.filter (fun r => r.subject == s) = r0 :: rest ∧
      out = ((r0 :: rest).map (fun r => os_path_join bd r.func_path),
             os_path_join bd r0.mask_path,
             (sortedKeys ((ed.filter (fun e => e.subject == sid)).map (·.run))).filterMap
               (fun r => if r ∈ srs then
                  some (mkBunch ((ed.filter (fun e => e.subject == sid)).filter
                    (fun e => e.run == r)))
                else none)) := by
  cases hs : pyInt? s with
  | none =>
    simp only [get_data, hs] at hok
    exact Except.noConfusion hok
  | some sid =>
    cases hr : (runs.filter (fun r => r.subject == s)).mapM (fun r => pyInt? r.number) with
    | none =>
      simp only [get_data, hs, hr] at hok
      exact Except.noConfusion hok
    | some srs =>
      cases hfl : runs.filter (fun r => r.subject == s) with
      | nil =>
        rw [hfl] at hr
        simp only [get_data, hs, hfl, hr, List.map_nil] at hok
        exact Except.noConfusion hok
      | cons r0 rest =>
        refine ⟨sid, srs, r0, rest, rfl, rfl, rfl, ?_⟩
        rw [hfl] at hr
        simp only [get_data, hs, hfl, hr, List.map_cons] at hok
        injection hok with h
        exact h.symm

/-- C10: a subject id with no matching entry in the run manifest never
yields a value: whenever the subject id itself parses, the failure is
precisely the `IndexError` of taking `bm[0]` from an empty mask list. -/
theorem get_data_no_match_fails {α : Type} (bd s : String) (ed : List (EventRow α))
    (runs : List RunRec) (h : runs.filter (fun r => r.subject == s) = []) :
    (∀ v, get_data bd s ed runs ≠ .ok v) ∧
    ∀ sid, pyInt? s = some sid → get_data bd s ed runs = .error .indexError := by
  constructor
  · intro v hok
    obtain ⟨sid, srs, r0, rest, _, _, hfl, _⟩ := get_data_ok_elim bd s ed runs v hok
    rw [h] at hfl
    cases hfl
  · intro sid hs
    have hm : (([] : List RunRec)).mapM (fun r => pyInt? r.number) = some [] := rfl
    simp only [get_data, hs, h, hm, List.map_nil]

/-- C10 witness: subject `"2"` with a manifest holding only subject `"1"`
fails with `IndexError`. -/
theorem get_data_no_match_fails_witness :
    (∀ v, get_data "b" "2" ([] : List (EventRow Int)) [⟨"1", "1", "f", "m"⟩] ≠ .ok v) ∧
    get_data "b" "2" ([] : List (EventRow Int)) [⟨"1", "1", "f", "m"⟩] =
      .error .indexError := by
  have h := get_data_no_match_fails "b" "2" ([] : List (EventRow Int))
    [⟨"1", "1", "f", "m"⟩] (by decide)
  exact ⟨h.1, h.2 2 (by decide)⟩

/-- C9: a successful `get_data` returns as brainmask exactly the
`bids_dir`-joined mask path of the first manifest entry matching the
subject; two manifests whose first matching entries agree on `mask_path`
yield the same brainmask no matter how the other matching entries'
mask paths differ. -/
theorem get_data_mask_first {α : Type} (bd s : String) (ed ed' : List (EventRow α))
    (runs runs' : List RunRec) (r0 : RunRec) (rest : List RunRec)
    (r0' : RunRec) (rest' : List RunRec)
    (hf : runs.filter (fun x => x.subject == s) = r0 :: rest)
    (hf' : runs'.filter (fun x => x.subject == s) = r0' :: rest')
    (hm : r0'.mask_path = r0.mask_path)
    (func func' : List String) (bm bm' : String) (bn bn' : List (Bunch α))
    (hok : get_data bd s ed runs = .ok (func, bm, bn))
    (hok' : get_data bd s ed' runs' = .ok (func', bm', bn')) :
    bm = os_path_join bd r0.mask_path ∧ bm' = bm := by
  obtain ⟨sid, srs, a0, arest, _, _, hfl, hout⟩ :=
    get_data_ok_elim bd s ed runs _ hok
  obtain ⟨sid', srs', a0', arest', _, _, hfl', hout'⟩ :=
    get_data_ok_elim bd s ed' runs' _ hok'
  rw [hf] at hfl
  rw [hf'] at hfl'
  injection hfl with h0 _
  injection hfl' with h0' _
  subst h0
  subst h0'
  simp only [Prod.mk.injEq] at hout hout'
  exact ⟨hout.2.1, by rw [hout'.2.1, hout.2.1, hm]⟩

/-- C9 witness: two manifests for subject `"1"` agreeing on the first
matching run but diverging on the second run's mask path give the same
brainmask `b/m1`. -/
theorem get_data_mask_first_witness :
    ("b/m1" : String) = os_path_join "b" "m1" ∧ ("b/m1" : String) = "b/m1" := by
  have h := get_data_mask_first "b" "1" ([] : List (EventRow Int)) []
    [⟨"1", "1", "f1", "m1"⟩, ⟨"2", "1", "f2", "mX"⟩]
    [⟨"1", "1", "f1", "m1"⟩, ⟨"2", "1", "f2", "mY"⟩]
    ⟨"1", "1", "f1", "m1"⟩ [⟨"2", "1", "f2", "mX"⟩]
    ⟨"1", "1", "f1", "m1"⟩ [⟨"2", "1", "f2", "mY"⟩]
    (by decide) (by decide) (by decide)
    ["b/f1", "b/f2"] ["b/f1", "b/f2"] "b/m1" "b/m1" [] []
    rfl rfl
  exact h

/-- C7 (amended): on success, the bundles of `get_data` are exactly one
per distinct run number that both occurs in the subject's rows of the
event table and appears among the subject's manifest run numbers, listed
in strictly ascending run order — so manifest runs with no event rows
contribute no bundle, and runs absent from the manifest contribute no
bundle. -/
theorem get_data_bundles {α : Type} (bd s : String) (ed : List (EventRow α))
    (runs : List RunRec) (func : List String) (bm : String) (bunches : List (Bunch α))
    (sid : Int) (hs : pyInt? s = some sid)
    (srs : List Int)
    (hr : (runs.filter (fun r => r.subject == s)).mapM (fun r => pyInt? r.number) = some srs)
    (hok : get_data bd s ed runs = .ok (func, bm, bunches)) :
    ∃ keys : List Int,
      bunches = keys.map (fun k =>
        mkBunch ((ed.filter (fun e => e.subject == sid)).filter (fun e => e.run == k))) ∧
      List.Sorted (· < ·) keys ∧
      ∀ k : Int, k ∈ keys ↔ (k ∈ srs ∧ ∃ e ∈ ed, e.subject = sid ∧ e.run = k) := by
  obtain ⟨sid', srs', r0, rest, hs', hr', hfl, hout⟩ :=
    get_data_ok_elim bd s ed runs _ hok
  rw [hs] at hs'
  injection hs' with hsid
  subst hsid
  rw [hr] at hr'
  injection hr' with hsrs
  subst hsrs
  simp only [Prod.mk.injEq] at hout
  obtain ⟨-, -, hbn⟩ := hout
  refine ⟨(sortedKeys ((ed.filter (fun e => e.subject == sid)).map (·.run))).filter
    (fun k => decide (k ∈ srs)), ?_, ?_, ?_⟩
  · rw [hbn, filterMap_if_mem]
  · exact (sortedKeys_sorted _).filter _
  · intro k
    constructor
    · intro hk
      obtain ⟨hk1, hk2⟩ := List.mem_filter.mp hk
      obtain ⟨e, he, hrun⟩ := List.mem_map.mp ((mem_sortedKeys _ _).mp hk1)
      obtain ⟨he1, he2⟩ := List.mem_filter.mp he
      exact ⟨of_decide_eq_true hk2, e, he1, eq_of_beq he2, hrun⟩
    · rintro ⟨hksrs, e, he, hsub, hrun⟩
      apply List.mem_filter.mpr
      refine ⟨(mem_sortedKeys _ _).mpr ?_, by simpa using hksrs⟩
      exact List.mem_map.mpr ⟨e, List.mem_filter.mpr ⟨he, by simp [hsub]⟩, hrun⟩

/-- C7 witness: subject `"1"` with event rows for runs 2 and 1 (in that
table order) and a manifest listing runs 1 and 2 yields bundles for the
keys 1 and 2 in ascending order. -/
theorem get_data_bundles_witness :
    ∃ keys : List Int,
      ([⟨["c"], [[0]], [[0]], [[0]]⟩, ⟨["c"], [[0]], [[0]], [[0]]⟩] : List (Bunch Int)) =
        keys.map (fun k => mkBunch
          ((([⟨1, 2, "c", (0 : Int), 0, 0⟩, ⟨1, 1, "c", 0, 0, 0⟩] :
            List (EventRow Int)).filter (fun e => e.subject == (1 : Int))).filter
            (fun e => e.run == k))) ∧
      List.Sorted (· < ·) keys ∧
      ∀ k : Int, k ∈ keys ↔ (k ∈ ([1, 2] : List Int) ∧
        ∃ e ∈ ([⟨1, 2, "c", (0 : Int), 0, 0⟩, ⟨1, 1, "c", 0, 0, 0⟩] : List (EventRow Int)),
          e.subject = (1 : Int) ∧ e.run = k) :=
  get_data_bundles "b" "1"
    [⟨1, 2, "c", (0 : Int), 0, 0⟩, ⟨1, 1, "c", 0, 0, 0⟩]
    [⟨"1", "1", "f1", "m1"⟩, ⟨"2", "1", "f2", "m2"⟩]
    ["b/f1", "b/f2"] "b/m1"
    [⟨["c"], [[0]], [[0]], [[0]]⟩, ⟨["c"], [[0]], [[0]], [[0]]⟩]
    1 (by decide) [1, 2] (by decide) rfl

/-- C7 counterexample to the claim as stated: a manifest listing two runs
for the subject while the event table has rows for only one of them
produces a single bundle, not one bundle per manifest run. -/
theorem get_data_manifest_run_cex :
    get_data "b" "1" [⟨1, 1, "c", (0 : Int), 0, 0⟩]
      [⟨"1", "1", "f1", "m1"⟩, ⟨"2", "1", "f2", "m2"⟩] =
      .ok (["b/f1", "b/f2"], "b/m1", [⟨["c"], [[0]], [[0]], [[0]]⟩]) ∧
    (([⟨"1", "1", "f1", "m1"⟩, ⟨"2", "1", "f2", "m2"⟩] : List RunRec).filter
      (fun r => r.subject == "1")).length = 2 ∧
    ([(⟨["c"], [[0]], [[0]], [[0]]⟩ : Bunch Int)]).length ≠ 2 :=
  ⟨rfl, by decide, by decide⟩

end FirstLevel
